import Mathlib

/-!
# Verification of the binance-dashboard cache layer and data-shaping pipeline

A shallow embedding, in Lean 4, of the in-scope core of the repository:

* `src/data/cache.py` — `CacheManager` (`get_cache_key`, `get`, `set`,
  `is_expired`, `get_or_compute`);
* `src/binance_api/models.py` — `Asset`, `Position`, `Trade`, `IncomeRecord`,
  `AccountSummary` and their `from_api_response` constructors;
* `src/binance_api/utils.py` — `safe_float`;
* `src/data/processor.py` — `DataProcessor.process_account_summary`,
  `process_positions_data`, `process_trades_data`,
  `calculate_performance_metrics`.

Modelling conventions:

* Python numbers are embedded as `ℚ` (the values the claims touch are exact
  decimals, so rational arithmetic is faithful; NaN cells produced by
  `pandas.to_numeric(errors=coerce)` are modelled as `Option ℚ` with `none`
  standing for NaN).
* Fallible Python operations (`float(...)`, `int(...)`, true division, dict
  iteration over ill-typed data) are embedded in `Except PyErr`; an
  uncaught Python exception is an `Except.error`.
* A raw API record (a Python dict) is an association list
  `List (String × PyVal)` over a dynamic value type `PyVal`.
* The mutable `st.session_state` store behind `CacheManager` is passed
  explicitly as an association list from full key strings to entries, and
  `time.time()` is an explicit `now : ℚ` argument.
-/

/-- A dynamic Python value, as it appears in raw API records:
`None`, booleans, ints, floats, strings, lists and dicts. -/
inductive PyVal : Type where
  | vnone : PyVal
  | vbool (b : Bool) : PyVal
  | vint (n : Int) : PyVal
  | vfloat (q : ℚ) : PyVal
  | vstr (s : String) : PyVal
  | vlist (xs : List PyVal) : PyVal
  | vdict (fields : List (String × PyVal)) : PyVal

/-- A raw API record: a Python dict with string keys. -/
abbrev RawDict : Type := List (String × PyVal)

/-- `d.get(k, default)` on a Python dict: the value of the first matching
key, or the default when the key is absent. -/
def dget (d : RawDict) (k : String) (default : PyVal) : PyVal :=
  match d.find? (fun kv => kv.1 == k) with
  | some kv => kv.2
  | none => default

/-- The Python exceptions the embedded code can raise. -/
inductive PyErr : Type where
  | valueError : PyErr
  | typeError : PyErr
  | zeroDivision : PyErr
  | keyError : PyErr
deriving DecidableEq, Repr

/-- A nonempty all-digit character list read as a decimal `Nat`. -/
def decDigits? (cs : List Char) : Option Nat :=
  if cs ≠ [] ∧ cs.all Char.isDigit then
    some (cs.foldl (fun a c => a * 10 + (c.toNat - 48)) 0)
  else none

/-- Split a leading sign character; `true` means negative. -/
def splitSign : List Char → Bool × List Char
  | c :: rest =>
    if c = Char.ofNat 45 then (true, rest)
    else if c = Char.ofNat 43 then (false, rest)
    else (false, c :: rest)
  | [] => (false, [])

/-- Python `int(s)` on a decimal integer literal string (optional sign and
digits); `none` when the string is not such a literal. -/
def parseIntLit? (s : String) : Option Int :=
  let (neg, cs) := splitSign s.toList
  (decDigits? cs).map (fun n => if neg then -(n : Int) else (n : Int))

/-- The unsigned mantissa of a float literal: `digits`, `digits.digits`,
`digits.` or `.digits`. -/
def parseMantissa? (cs : List Char) : Option ℚ :=
  let (ip, rest) := cs.span (fun c => c ≠ Char.ofNat 46)
  match rest with
  | [] => (decDigits? ip).map (fun n => (n : ℚ))
  | _ :: fp =>
    if ip.isEmpty ∧ fp.isEmpty then none
    else
      let ipN? : Option Nat := if ip.isEmpty then some 0 else decDigits? ip
      let fpN? : Option Nat := if fp.isEmpty then some 0 else decDigits? fp
      match ipN?, fpN? with
      | some i, some f => some ((i : ℚ) + (f : ℚ) / (10 : ℚ) ^ fp.length)
      | _, _ => none

/-- Python `float(s)` on a finite decimal literal string (optional sign,
mantissa, optional decimal exponent). Exotic accepted spellings (inf, nan,
underscores, surrounding whitespace) are outside the model; no claim
depends on them. -/
def parseFloatLit? (s : String) : Option ℚ :=
  let (neg, cs) := splitSign s.toList
  let (mant, erest) := cs.span (fun c => c ≠ Char.ofNat 101 ∧ c ≠ Char.ofNat 69)
  let exp? : Option Int :=
    match erest with
    | [] => some 0
    | _ :: ecs =>
      let (eneg, eds) := splitSign ecs
      (decDigits? eds).map (fun n => if eneg then -(n : Int) else (n : Int))
  match parseMantissa? mant, exp? with
  | some m, some e => some ((if neg then -m else m) * (10 : ℚ) ^ e)
  | _, _ => none

/-- Python `float(value)`: identity on numbers, `1.0`/`0.0` on booleans,
literal parsing on strings, `TypeError` on `None`, lists and dicts,
`ValueError` on non-numeric strings. -/
def pyfloat : PyVal → Except PyErr ℚ
  | .vbool b => .ok (if b then 1 else 0)
  | .vint n => .ok (n : ℚ)
  | .vfloat q => .ok q
  | .vstr s =>
    match parseFloatLit? s with
    | some q => .ok q
    | none => .error .valueError
  | .vnone => .error .typeError
  | .vlist _ => .error .typeError
  | .vdict _ => .error .typeError

/-- Truncation toward zero, as Python `int` applied to a float. -/
def truncQ (q : ℚ) : Int := if 0 ≤ q then ⌊q⌋ else ⌈q⌉

/-- Python `int(value)`: identity on ints, truncation on floats, integer
literal parsing on strings, `TypeError`/`ValueError` otherwise. -/
def pyint : PyVal → Except PyErr Int
  | .vbool b => .ok (if b then 1 else 0)
  | .vint n => .ok n
  | .vfloat q => .ok (truncQ q)
  | .vstr s =>
    match parseIntLit? s with
    | some n => .ok n
    | none => .error .valueError
  | .vnone => .error .typeError
  | .vlist _ => .error .typeError
  | .vdict _ => .error .typeError

/-- `utils.safe_float` (src/binance_api/utils.py:74): default on `None` and
the empty string, `float(value)` when it succeeds, default when it raises
`ValueError`/`TypeError`. -/
def safe_float (v : PyVal) (default : ℚ) : ℚ :=
  match v with
  | .vnone => default
  | .vstr s =>
    if s = "" then default
    else ((pyfloat (.vstr s)).toOption).getD default
  | _ => ((pyfloat v).toOption).getD default

/-! ## The cache layer (src/data/cache.py) -/

/-- The session-state store behind `CacheManager`: full key strings mapped
to entries. Python dict assignment, lookup and deletion are modelled on
the association list. -/
abbrev Store (α : Type) : Type := List (String × α)

/-- Dict lookup: the value under the first matching key. -/
def sLookup {α : Type} (st : Store α) (k : String) : Option α :=
  match st.find? (fun kv => kv.1 == k) with
  | some kv => some kv.2
  | none => none

/-- `del st[k]`: remove the key. -/
def sErase {α : Type} (st : Store α) (k : String) : Store α :=
  st.filter (fun kv => kv.1 != k)

/-- `st[k] = v`: overwrite the key unconditionally. -/
def sInsert {α : Type} (st : Store α) (k : String) (v : α) : Store α :=
  (k, v) :: sErase st k

/-- One cache entry: the dict `\x7b data, timestamp, timeout \x7d` stored by
`CacheManager.set`. Every stored entry has this shape, so the source's
`isinstance(cached_item, dict)` and key-membership guards always hold. -/
structure Entry (α : Type) where
  data : α
  timestamp : ℚ
  timeout : ℚ
deriving DecidableEq, Repr

/-- `self.cache_key_prefix`, fixed by `CacheManager.__init__` (the source
calls it the cache key prefix). -/
def cache_key_ns : String := "binance_dashboard_"

/-- The apostrophe character, used by Python `repr` on strings. -/
def pyQuote : Char := Char.ofNat 39

/-- Python `repr` of a plain string (escaping inside the string is not
modelled; the result is only fed to the hash function). -/
def pyReprStr (s : String) : String :=
  String.singleton pyQuote ++ s ++ String.singleton pyQuote

/-- Python `str` of a list of strings: `[repr, repr, ...]`. -/
def pyStrList (xs : List String) : String :=
  "[" ++ String.intercalate ", " (xs.map pyReprStr) ++ "]"

/-- Python `sorted` on strings: a stable sort by lexicographic order. -/
def pySorted (xs : List String) : List String :=
  List.insertionSort (fun a b => a ≤ b) xs

/-- `CacheManager.get_cache_key` (src/data/cache.py:15). The 8-character
MD5 hex fingerprint of the stringified sorted arguments is abstracted as
the parameter `md5hex8`; every theorem below that involves it holds for
every such function, in particular for real MD5. Arguments are modelled
as strings (Python `sorted` needs mutually comparable arguments). -/
def get_cache_key (md5hex8 : String → String) (key : String) (args : List String) : String :=
  match args with
  | [] => cache_key_ns ++ key
  | _ :: _ =>
    let args_hash := md5hex8 (pyStrList (pySorted args))
    cache_key_ns ++ key ++ "_" ++ args_hash

/-- `get_cache_key` with no arguments does not consult the hash function:
it is the namespaced key. -/
theorem get_cache_key_nil (md5hex8 : String → String) (key : String) :
    get_cache_key md5hex8 key [] = cache_key_ns ++ key := rfl

structure CacheManager where
  default_timeout : ℚ

/-- `CacheManager.get` (src/data/cache.py:24). `now` is the value of
`time.time()`; the result pairs the returned value with the store after
the call (lazy eviction of an expired entry). The source's shape checks
on the stored dict hold by construction in the typed store. -/
def CacheManager.get {α : Type} (now : ℚ) (st : Store (Entry α)) (key : String)
    (default : α) : α × Store (Entry α) :=
  let cache_key := cache_key_ns ++ key
  match sLookup st cache_key with
  | some e =>
    if now - e.timestamp < e.timeout then (e.data, st)
    else (default, sErase st cache_key)
  | none => (default, st)

/-- `CacheManager.set` (src/data/cache.py:40): unconditional overwrite,
current time as creation timestamp, `None` timeout resolved to the
manager's default. -/
def CacheManager.set {α : Type} (cm : CacheManager) (now : ℚ) (st : Store (Entry α))
    (key : String) (value : α) (timeout : Option ℚ) : Store (Entry α) :=
  let t := timeout.getD cm.default_timeout
  let cache_key := cache_key_ns ++ key
  sInsert st cache_key ⟨value, now, t⟩

/-- `CacheManager.is_expired` (src/data/cache.py:64): true when the entry
is absent or past its time-to-live. -/
def CacheManager.is_expired {α : Type} (now : ℚ) (st : Store (Entry α)) (key : String) : Bool :=
  let cache_key := cache_key_ns ++ key
  match sLookup st cache_key with
  | some e => decide (e.timeout ≤ now - e.timestamp)
  | none => true

/-- The observable outcome of one `get_or_compute` call: the returned
value, the store after the call, and how many times the producer ran. -/
structure GOCResult (V : Type) where
  value : Option V
  store : Store (Entry (Option V))
  calls : Nat
deriving DecidableEq, Repr

/-- `CacheManager.get_or_compute` (src/data/cache.py:75). The payload type
is `Option V`, with `none` standing for Python `None` (both as `get`'s
default and as a producer result). The source computes the
argument-qualified `cache_key` and then never uses it; the embedding
keeps that dead binding. Keyword arguments are not modelled (no caller
in the repository passes any). -/
def CacheManager.get_or_compute {V : Type} (md5hex8 : String → String) (cm : CacheManager)
    (now : ℚ) (st : Store (Entry (Option V))) (key : String)
    (compute_func : List String → Option V) (timeout : Option ℚ)
    (args : List String) : GOCResult V :=
  let _cache_key :=
    if args.isEmpty then get_cache_key md5hex8 key []
    else get_cache_key md5hex8 key args
  if CacheManager.is_expired now st key then
    let value := compute_func args
    ⟨value, cm.set now st key value timeout, 1⟩
  else
    let r := CacheManager.get now st key none
    match r.1 with
    | some v => ⟨some v, r.2, 0⟩
    | none =>
      let value := compute_func args
      ⟨value, cm.set now r.2 key value timeout, 1⟩

/-! ## Record shaping (src/binance_api/models.py) -/

/-- `models.Asset`. Text-valued fields keep the raw `PyVal` (Python stores
whatever the record held); `update_time` is the `datetime.now()` instant,
passed in as `now`. -/
structure Asset where
  symbol : PyVal
  wallet_balance : ℚ
  unrealized_pnl : ℚ
  margin_balance : ℚ
  maint_margin : ℚ
  initial_margin : ℚ
  position_initial_margin : ℚ
  open_order_initial_margin : ℚ
  cross_wallet_balance : ℚ
  cross_unpnl : ℚ
  available_balance : ℚ
  max_withdraw_amount : ℚ
  margin_available : PyVal
  update_time : ℚ

/-- `Asset.from_api_response` (src/binance_api/models.py:24): `float` over
`dict.get` with default `0` for each numeric field; a malformed present
value makes `float` raise, which the `Except` propagates. -/
def Asset.from_api_response (now : ℚ) (asset_data : RawDict) : Except PyErr Asset := do
  let wallet_balance ← pyfloat (dget asset_data "walletBalance" (.vint 0))
  let unrealized_pnl ← pyfloat (dget asset_data "unrealizedPnl" (.vint 0))
  let margin_balance ← pyfloat (dget asset_data "marginBalance" (.vint 0))
  let maint_margin ← pyfloat (dget asset_data "maintMargin" (.vint 0))
  let initial_margin ← pyfloat (dget asset_data "initialMargin" (.vint 0))
  let position_initial_margin ← pyfloat (dget asset_data "positionInitialMargin" (.vint 0))
  let open_order_initial_margin ← pyfloat (dget asset_data "openOrderInitialMargin" (.vint 0))
  let cross_wallet_balance ← pyfloat (dget asset_data "crossWalletBalance" (.vint 0))
  let cross_unpnl ← pyfloat (dget asset_data "crossUnPnl" (.vint 0))
  let available_balance ← pyfloat (dget asset_data "availableBalance" (.vint 0))
  let max_withdraw_amount ← pyfloat (dget asset_data "maxWithdrawAmount" (.vint 0))
  pure {
    symbol := dget asset_data "asset" (.vstr "")
    wallet_balance := wallet_balance
    unrealized_pnl := unrealized_pnl
    margin_balance := margin_balance
    maint_margin := maint_margin
    initial_margin := initial_margin
    position_initial_margin := position_initial_margin
    open_order_initial_margin := open_order_initial_margin
    cross_wallet_balance := cross_wallet_balance
    cross_unpnl := cross_unpnl
    available_balance := available_balance
    max_withdraw_amount := max_withdraw_amount
    margin_available := dget asset_data "marginAvailable" (.vbool false)
    update_time := now
  }

/-- `models.Position`. -/
structure Position where
  symbol : PyVal
  position_side : PyVal
  size : ℚ
  entry_price : ℚ
  mark_price : ℚ
  unrealized_pnl : ℚ
  percentage : ℚ
  leverage : ℚ
  margin_type : PyVal
  notional : ℚ
  update_time : ℚ

/-- `Position.from_api_response` (src/binance_api/models.py:59). -/
def Position.from_api_response (now : ℚ) (position_data : RawDict) : Except PyErr Position := do
  let size ← pyfloat (dget position_data "size" (.vint 0))
  let entry_price ← pyfloat (dget position_data "entryPrice" (.vint 0))
  let mark_price ← pyfloat (dget position_data "markPrice" (.vint 0))
  let unrealized_pnl ← pyfloat (dget position_data "unrealized_pnl" (.vint 0))
  let percentage ← pyfloat (dget position_data "percentage" (.vint 0))
  let leverage ← pyfloat (dget position_data "leverage" (.vint 1))
  let notional ← pyfloat (dget position_data "notional" (.vint 0))
  pure {
    symbol := dget position_data "symbol" (.vstr "")
    position_side := dget position_data "positionSide" (.vstr "")
    size := size
    entry_price := entry_price
    mark_price := mark_price
    unrealized_pnl := unrealized_pnl
    percentage := percentage
    leverage := leverage
    margin_type := dget position_data "margin_type" (.vstr "")
    notional := notional
    update_time := now
  }

/-- `Position.is_long` (src/binance_api/models.py:77). -/
def Position.is_long (p : Position) : Bool := decide (p.size > 0)

/-- `Position.is_short` (src/binance_api/models.py:82). -/
def Position.is_short (p : Position) : Bool := decide (p.size < 0)

/-- `Position.pnl_percentage` (src/binance_api/models.py:87):
`0` when the entry price is `0`, otherwise
`(mark - entry) / entry * 100 * (1 if is_long else -1)`. -/
def Position.pnl_percentage (p : Position) : ℚ :=
  if p.entry_price = 0 then 0
  else (p.mark_price - p.entry_price) / p.entry_price * 100 * (if p.is_long then 1 else -1)

/-- `models.Trade`. `time` is the epoch-second instant
`int(record time) / 1000` that `datetime.fromtimestamp` receives. -/
structure Trade where
  symbol : PyVal
  side : PyVal
  quantity : ℚ
  price : ℚ
  commission : ℚ
  commission_asset : PyVal
  time : ℚ
  order_id : Int
  order_list_id : Int
  real_pnl : ℚ

/-- `Trade.from_api_response` (src/binance_api/models.py:108). The
`real_pnl` dataclass field keeps its default `0.0` (the constructor never
sets it). -/
def Trade.from_api_response (trade_data : RawDict) : Except PyErr Trade := do
  let quantity ← pyfloat (dget trade_data "qty" (.vint 0))
  let price ← pyfloat (dget trade_data "price" (.vint 0))
  let commission ← pyfloat (dget trade_data "commission" (.vint 0))
  let tms ← pyint (dget trade_data "time" (.vint 0))
  let order_id ← pyint (dget trade_data "orderId" (.vint 0))
  let order_list_id ← pyint (dget trade_data "orderListId" (.vint (-1)))
  pure {
    symbol := dget trade_data "symbol" (.vstr "")
    side := dget trade_data "side" (.vstr "")
    quantity := quantity
    price := price
    commission := commission
    commission_asset := dget trade_data "commissionAsset" (.vstr "")
    time := (tms : ℚ) / 1000
    order_id := order_id
    order_list_id := order_list_id
    real_pnl := 0
  }

/-- `models.IncomeRecord`. -/
structure IncomeRecord where
  symbol : PyVal
  income_type : PyVal
  income : ℚ
  asset : PyVal
  time : ℚ
  transaction_id : Int
  trade_id : Int

/-- `IncomeRecord.from_api_response` (src/binance_api/models.py:134). -/
def IncomeRecord.from_api_response (income_data : RawDict) : Except PyErr IncomeRecord := do
  let income ← pyfloat (dget income_data "income" (.vint 0))
  let tms ← pyint (dget income_data "time" (.vint 0))
  let transaction_id ← pyint (dget income_data "tranId" (.vint 0))
  let trade_id ← pyint (dget income_data "tradeId" (.vint 0))
  pure {
    symbol := dget income_data "symbol" (.vstr "")
    income_type := dget income_data "incomeType" (.vstr "")
    income := income
    asset := dget income_data "asset" (.vstr "")
    time := (tms : ℚ) / 1000
    transaction_id := transaction_id
    trade_id := trade_id
  }

/-- `models.AccountSummary`. -/
structure AccountSummary where
  total_balance : ℚ
  total_unrealized_pnl : ℚ
  total_wallet_balance : ℚ
  available_balance : ℚ
  margin_balance : ℚ
  assets : List Asset
  positions : List Position
  update_time : ℚ

/-- Iterating a Python value as a list; only actual lists are modelled as
iterable (all the repository feeds here are lists; other iterables would
fail on the subsequent `.get` anyway, again as an `Except.error`). -/
def asPyList : PyVal → Except PyErr (List PyVal)
  | .vlist xs => .ok xs
  | _ => .error .typeError

/-- An element of `assets`/`positions` must be a dict for `.get`. -/
def asPyDict : PyVal → Except PyErr RawDict
  | .vdict fields => .ok fields
  | _ => .error .typeError

/-- The `positions` comprehension of `AccountSummary.from_api_response`
(src/binance_api/models.py:162): keep a record only when
`abs(float(pos.get(positionAmt, 0))) > 0`, shaping the kept ones. -/
def shapePositions (now : ℚ) : List PyVal → Except PyErr (List Position)
  | [] => .ok []
  | v :: rest => do
    let d ← asPyDict v
    let amt ← pyfloat (dget d "positionAmt" (.vint 0))
    if |amt| > 0 then
      let p ← Position.from_api_response now d
      let tail ← shapePositions now rest
      pure (p :: tail)
    else
      shapePositions now rest

/-- The `assets` comprehension of `AccountSummary.from_api_response`. -/
def shapeAssets (now : ℚ) : List PyVal → Except PyErr (List Asset)
  | [] => .ok []
  | v :: rest => do
    let d ← asPyDict v
    let a ← Asset.from_api_response now d
    let tail ← shapeAssets now rest
    pure (a :: tail)

/-- `AccountSummary.from_api_response` (src/binance_api/models.py:159). -/
def AccountSummary.from_api_response (now : ℚ) (account_data : RawDict) :
    Except PyErr AccountSummary := do
  let rawAssets ← asPyList (dget account_data "assets" (.vlist []))
  let assets ← shapeAssets now rawAssets
  let rawPositions ← asPyList (dget account_data "positions" (.vlist []))
  let positions ← shapePositions now rawPositions
  let total_balance ← pyfloat (dget account_data "total_balance" (.vint 0))
  let total_unrealized_pnl ← pyfloat (dget account_data "total_unrealized_pnl" (.vint 0))
  let total_wallet_balance ← pyfloat (dget account_data "total_wallet_balance" (.vint 0))
  let available_balance ← pyfloat (dget account_data "available_balance" (.vint 0))
  let margin_balance ← pyfloat (dget account_data "margin_balance" (.vint 0))
  pure {
    total_balance := total_balance
    total_unrealized_pnl := total_unrealized_pnl
    total_wallet_balance := total_wallet_balance
    available_balance := available_balance
    margin_balance := margin_balance
    assets := assets
    positions := positions
    update_time := now
  }

/-- `AccountSummary.active_positions_count` (src/binance_api/models.py:182). -/
def AccountSummary.active_positions_count (s : AccountSummary) : Nat :=
  s.positions.length

/-! ## The aggregation pipeline (src/data/processor.py) -/

/-- Python true division: raises `ZeroDivisionError` on a zero divisor. -/
def pydiv (a b : ℚ) : Except PyErr ℚ :=
  if b = 0 then .error .zeroDivision else .ok (a / b)

/-- Python `==` between a dynamic value and a string literal. -/
def pyEqStr : PyVal → String → Bool
  | .vstr t, s => t == s
  | _, _ => false

/-- Python `c in s` on a string. -/
def pyIn (c : Char) (s : String) : Bool := s.toList.contains c

/-- Python `s.endswith(t)`. -/
def pyEndsWith (s t : String) : Bool := t.toList.isSuffixOf s.toList

/-- Python slicing `s[:-n]`. -/
def pyDropRight (s : String) (n : Nat) : String :=
  String.mk (s.toList.take (s.toList.length - n))

/-- The string body of `DataProcessor._format_symbol`
(src/data/processor.py:274): insert a slash before a USDT suffix when the
symbol has no slash yet. Python string operations are modelled over the
character list. -/
def format_symbol_str (s : String) : String :=
  if ¬ pyIn (Char.ofNat 47) s ∧ pyEndsWith s "USDT" then
    pyDropRight s 4 ++ "/USDT"
  else s

/-- `_format_symbol` applied to a dynamic record field: the membership
test and `endswith` raise on a non-string value. -/
def format_symbol (v : PyVal) : Except PyErr String :=
  match v with
  | .vstr s => .ok (format_symbol_str s)
  | _ => .error .typeError

/-- One element of `_process_assets`'s result
(src/data/processor.py:42). The `formatted_balance` / `formatted_pnl`
display strings are omitted: `format_currency` is total, so the omission
cannot hide an exception, and no claim mentions them. -/
structure ProcAsset where
  symbol : PyVal
  balance : ℚ
  unrealized_pnl : ℚ
  available_balance : ℚ
  margin_balance : ℚ

/-- `DataProcessor._process_assets` (src/data/processor.py:42): keep
assets with positive wallet balance. -/
def process_assets (assets : List Asset) : List ProcAsset :=
  (assets.filter (fun a => decide (a.wallet_balance > 0))).map fun a =>
    { symbol := a.symbol
      balance := a.wallet_balance
      unrealized_pnl := a.unrealized_pnl
      available_balance := a.available_balance
      margin_balance := a.margin_balance }

/-- The dict returned by `DataProcessor._summarize_positions`. -/
structure PosSummary where
  total_notional : ℚ
  total_unrealized_pnl : ℚ
  long_positions : Nat
  short_positions : Nat
  avg_leverage : ℚ

/-- `DataProcessor._summarize_positions` (src/data/processor.py:58). The
`len(positions)` divisor in the nonempty branch is nonzero, so plain
rational division is faithful there. -/
def summarize_positions (positions : List Position) : PosSummary :=
  if positions.isEmpty then
    { total_notional := 0, total_unrealized_pnl := 0,
      long_positions := 0, short_positions := 0, avg_leverage := 1 }
  else
    { total_notional := (positions.map (fun p => |p.notional|)).sum
      total_unrealized_pnl := (positions.map (fun p => p.unrealized_pnl)).sum
      long_positions := (positions.filter (fun p => p.is_long)).length
      short_positions := (positions.filter (fun p => p.is_short)).length
      avg_leverage := (positions.map (fun p => p.leverage)).sum / (positions.length : ℚ) }

/-- The dict returned by `DataProcessor.process_account_summary`. -/
structure ProcSummary where
  total_balance : ℚ
  available_balance : ℚ
  total_pnl : ℚ
  pnl_percentage : ℚ
  margin_balance : ℚ
  active_positions : Nat
  total_exposure : ℚ
  leverage_usage : ℚ
  usdt_balance : ℚ
  other_assets_balance : ℚ
  update_time : ℚ
  assets : List ProcAsset
  positions_summary : PosSummary

/-- `DataProcessor.process_account_summary` (src/data/processor.py:13).
The two divisions are embedded through `pydiv`: each runs only under the
source's `total_balance > 0` guard, and the PnL-percentage divisor
`total_balance - total_unrealized_pnl` is not itself guarded. -/
def process_account_summary (now : ℚ) (account_data : RawDict) : Except PyErr ProcSummary := do
  let summary ← AccountSummary.from_api_response now account_data
  let total_investment :=
    ((summary.assets.filter (fun a => !pyEqStr a.symbol "USDT")).map
      (fun a => a.wallet_balance)).sum
  let usdt_balance :=
    ((summary.assets.find? (fun a => pyEqStr a.symbol "USDT")).map
      (fun a => a.wallet_balance)).getD 0
  let active_positions_value := (summary.positions.map (fun p => |p.notional|)).sum
  let total_exposure := active_positions_value
  let leverage_usage ←
    if summary.total_balance > 0 then pydiv total_exposure summary.total_balance
    else pure 0
  let pnl_percentage ←
    if summary.total_balance > 0 then do
      let r ← pydiv summary.total_unrealized_pnl
        (summary.total_balance - summary.total_unrealized_pnl)
      pure (r * 100)
    else pure 0
  pure {
    total_balance := summary.total_balance
    available_balance := summary.available_balance
    total_pnl := summary.total_unrealized_pnl
    pnl_percentage := pnl_percentage
    margin_balance := summary.margin_balance
    active_positions := summary.active_positions_count
    total_exposure := total_exposure
    leverage_usage := leverage_usage
    usdt_balance := usdt_balance
    other_assets_balance := total_investment
    update_time := summary.update_time
    assets := process_assets summary.assets
    positions_summary := summarize_positions summary.positions
  }

/-- One element of `process_positions_data`'s result
(src/data/processor.py:158). The `formatted_size` /
`formatted_entry_price` / `formatted_mark_price` / `formatted_pnl` /
`formatted_percentage` / `formatted_notional` display strings are
omitted: their formatters are total and no claim mentions them. -/
structure ProcPos where
  symbol : PyVal
  formatted_symbol : String
  side : String
  size : ℚ
  entry_price : ℚ
  mark_price : ℚ
  unrealized_pnl : ℚ
  pnl_percentage : ℚ
  leverage : ℚ
  notional : ℚ
  margin_type : PyVal
  pnl_color : String

/-- The per-record body of `process_positions_data`
(src/data/processor.py:144): `safe_float` extraction, the PnL-percentage
formula guarded by `entry_price > 0` (so its divisor is nonzero), the
`LONG`/`SHORT` side, absolute size and notional, and the PnL colour.
`_format_symbol` is the only fallible step. -/
def shapeProcPos (pos : RawDict) : Except PyErr ProcPos := do
  let size := safe_float (dget pos "size" (.vint 0)) 0
  let entry_price := safe_float (dget pos "entry_price" (.vint 0)) 0
  let mark_price := safe_float (dget pos "mark_price" (.vint 0)) 0
  let unrealized_pnl := safe_float (dget pos "unrealized_pnl" (.vint 0)) 0
  let leverage := safe_float (dget pos "leverage" (.vint 1)) 0
  let notional := safe_float (dget pos "notional" (.vint 0)) 0
  let pnl_percentage :=
    if entry_price > 0 then
      (mark_price - entry_price) / entry_price * 100 * (if size > 0 then 1 else -1)
    else 0
  let formatted_symbol ← format_symbol (dget pos "symbol" (.vstr ""))
  pure {
    symbol := dget pos "symbol" (.vstr "")
    formatted_symbol := formatted_symbol
    side := if size > 0 then "LONG" else "SHORT"
    size := |size|
    entry_price := entry_price
    mark_price := mark_price
    unrealized_pnl := unrealized_pnl
    pnl_percentage := pnl_percentage
    leverage := leverage
    notional := |notional|
    margin_type := dget pos "margin_type" (.vstr "cross")
    pnl_color :=
      if unrealized_pnl > 0 then "green"
      else if unrealized_pnl < 0 then "red"
      else "gray"
  }

/-- The shaping loop of `process_positions_data`, in input order. -/
def shapeAllPositions : List RawDict → Except PyErr (List ProcPos)
  | [] => .ok []
  | pos :: rest => do
    let r ← shapeProcPos pos
    let tail ← shapeAllPositions rest
    pure (r :: tail)

/-- `DataProcessor.process_positions_data` (src/data/processor.py:140):
shape every record, then sort descending by absolute unrealized PnL
(`list.sort(key=..., reverse=True)` is a stable descending sort, matched
by a stable merge sort with the reversed comparison). -/
def process_positions_data (positions : List RawDict) : Except PyErr (List ProcPos) := do
  let processed ← shapeAllPositions positions
  pure (processed.mergeSort (fun a b => decide (|b.unrealized_pnl| ≤ |a.unrealized_pnl|)))

/-- One row of the trades DataFrame. Numeric cells are the values after
`pd.to_numeric(errors=coerce)`: `none` is a NaN produced from a
non-numeric raw cell. -/
structure TradeRow where
  symbol : String
  time : Int
  qty : Option ℚ
  quoteQty : Option ℚ
  price : Option ℚ
  commission : Option ℚ
  realized_pnl : Option ℚ
deriving DecidableEq, Repr

/-- The trades DataFrame: column presence is frame-level (the source
tests `col in df.columns`); a row field is read only when its flag is
set. -/
structure TradesFrame where
  hasSymbol : Bool
  hasTime : Bool
  hasQty : Bool
  hasQuoteQty : Bool
  hasPrice : Bool
  hasCommission : Bool
  hasRealizedPnl : Bool
  rows : List TradeRow
deriving DecidableEq, Repr

/-- pandas column `sum` (NaN skipped; empty sum is `0`). -/
def nsum (cells : List (Option ℚ)) : ℚ := (cells.filterMap id).sum

/-- pandas column `count`: the number of non-NaN cells. -/
def ncount (cells : List (Option ℚ)) : Nat := (cells.filterMap id).length

/-- pandas column `mean` (NaN skipped; all-NaN mean is NaN, i.e. `none`). -/
def nmean (cells : List (Option ℚ)) : Option ℚ :=
  let v := cells.filterMap id
  if v.isEmpty then none else some (v.sum / (v.length : ℚ))

/-- The distinct group keys in pandas order (sorted ascending). -/
def sortedKeys {κ : Type} [LinearOrder κ] [DecidableEq κ] (ks : List κ) : List κ :=
  List.insertionSort (fun a b => a ≤ b) ks.dedup

/-- One group of the `groupby(...).agg` result: count of non-NaN `qty`,
summed `quoteQty`, summed `commission`. -/
structure GroupStats where
  trade_count : Nat
  quoteQty : ℚ
  commission : ℚ
deriving DecidableEq, Repr

/-- The `agg` body applied to one group of rows. -/
def groupAgg (g : List TradeRow) : GroupStats :=
  { trade_count := ncount (g.map (fun r => r.qty))
    quoteQty := nsum (g.map (fun r => r.quoteQty))
    commission := nsum (g.map (fun r => r.commission)) }

/-- `pd.to_datetime` reads integer input as nanoseconds since the epoch;
`.dt.date` floors to the day. -/
def pdDate (t : Int) : Int := t.fdiv 86400000000000

/-- The dict returned by `DataProcessor.process_trades_data`. On the
nonempty branch the source omits the `win_rate` key, modelled as
`win_rate = none`; `avg_trade_size = none` models a NaN mean (all-NaN
`qty` column), and an absent `qty` column gives `some 0`. -/
structure TradesSummary where
  total_trades : Nat
  total_volume : ℚ
  total_commission : ℚ
  win_rate : Option ℚ
  avg_trade_size : Option ℚ
  trades_by_symbol : List (String × GroupStats)
  trades_by_day : List (Int × GroupStats)
deriving DecidableEq, Repr

/-- `DataProcessor.process_trades_data` (src/data/processor.py:83). The
`groupby(...).agg` calls read the `qty`/`quoteQty`/`commission` columns
unconditionally, raising `KeyError` when one is absent. -/
def process_trades_data (df : TradesFrame) : Except PyErr TradesSummary :=
  if df.rows.isEmpty then
    .ok { total_trades := 0, total_volume := 0, total_commission := 0,
          win_rate := some 0, avg_trade_size := some 0,
          trades_by_symbol := [], trades_by_day := [] }
  else do
    let total_trades := df.rows.length
    let total_volume := if df.hasQuoteQty then nsum (df.rows.map (fun r => r.quoteQty)) else 0
    let total_commission :=
      if df.hasCommission then nsum (df.rows.map (fun r => r.commission)) else 0
    let avg_trade_size := if df.hasQty then nmean (df.rows.map (fun r => r.qty)) else some 0
    let trades_by_symbol ←
      if df.hasSymbol then
        if df.hasQty && df.hasQuoteQty && df.hasCommission then
          pure ((sortedKeys (df.rows.map (fun r => r.symbol))).map fun k =>
            (k, groupAgg (df.rows.filter (fun r => r.symbol == k))))
        else .error .keyError
      else pure []
    let trades_by_day ←
      if df.hasTime then
        if df.hasQty && df.hasQuoteQty && df.hasCommission then
          pure ((sortedKeys (df.rows.map (fun r => pdDate r.time))).map fun k =>
            (k, groupAgg (df.rows.filter (fun r => pdDate r.time == k))))
        else .error .keyError
      else pure []
    pure { total_trades := total_trades
           total_volume := total_volume
           total_commission := total_commission
           win_rate := none
           avg_trade_size := avg_trade_size
           trades_by_symbol := trades_by_symbol
           trades_by_day := trades_by_day }

/-- The metrics dict of `calculate_performance_metrics`. `profit_factor`
is `none` for the Python value `float(inf)`, `some q` for a finite
value. `sharpe_ratio` is omitted: it multiplies by `sqrt(365)` and a
standard deviation (irrational reals); no claim touches it. -/
structure PerfMetrics where
  max_drawdown : ℚ
  win_rate : ℚ
  profit_factor : Option ℚ
  avg_win : ℚ
  avg_loss : ℚ
  largest_win : ℚ
  largest_loss : ℚ
deriving DecidableEq, Repr

/-- `.max()` of a column, used only on nonempty selections. -/
def pymax (l : List ℚ) : ℚ :=
  match l with
  | [] => 0
  | x :: xs => xs.foldl max x

/-- `.min()` of a column, used only on nonempty selections. -/
def pymin (l : List ℚ) : ℚ :=
  match l with
  | [] => 0
  | x :: xs => xs.foldl min x

/-- `DataProcessor.calculate_performance_metrics`
(src/data/processor.py:229). The `positions` argument is unused in the
source body. numpy comparison semantics on the `realized_pnl` cells:
`NaN != 0` is true (NaN survives the nonzero filter), `NaN > 0` and
`NaN < 0` are false (NaN joins neither wins nor losses). In the computing
branch `returnsNZ` is nonempty, so the `win_rate` divisor is nonzero. -/
def calculate_performance_metrics (df : TradesFrame) (_positions : List RawDict) : PerfMetrics :=
  let base : PerfMetrics :=
    { max_drawdown := 0, win_rate := 0, profit_factor := some 0,
      avg_win := 0, avg_loss := 0, largest_win := 0, largest_loss := 0 }
  if df.rows.isEmpty then base
  else if df.hasRealizedPnl then
    let returns := df.rows.map (fun r => r.realized_pnl)
    let returnsNZ := returns.filter (fun c =>
      match c with
      | some q => decide (q ≠ 0)
      | none => true)
    if returnsNZ.isEmpty then base
    else
      let winning := returnsNZ.filterMap (fun c =>
        c.bind (fun q => if q > 0 then some q else none))
      let losing := returnsNZ.filterMap (fun c =>
        c.bind (fun q => if q < 0 then some q else none))
      let total_wins := if winning.length > 0 then winning.sum else 0
      let total_losses := if losing.length > 0 then |losing.sum| else 0
      { max_drawdown := 0
        win_rate := (winning.length : ℚ) / (returnsNZ.length : ℚ) * 100
        profit_factor :=
          if total_losses > 0 then some (total_wins / total_losses) else none
        avg_win := if winning.length > 0 then winning.sum / (winning.length : ℚ) else 0
        avg_loss := if losing.length > 0 then losing.sum / (losing.length : ℚ) else 0
        largest_win := if winning.length > 0 then pymax winning else 0
        largest_loss := if losing.length > 0 then pymin losing else 0 }
  else base

/-- Modelled from the spec's words, for comparison with
`Position.pnl_percentage`: the PnL percentage is
`(mark - entry) / entry * 100`, sign-flipped exactly when the position is
short (`size < 0`), and `0` when the entry price is `0`. -/
def pnl_percentage_claimed (p : Position) : ℚ :=
  if p.entry_price = 0 then 0
  else (p.mark_price - p.entry_price) / p.entry_price * 100 * (if p.size < 0 then -1 else 1)

/-- The numeric field `k` of record `d` (with `dict.get` default `dflt`)
converts through Python `float` without raising. -/
def floatField_ok (d : RawDict) (k : String) (dflt : PyVal) : Prop :=
  (pyfloat (dget d k dflt)).isOk = true

/-- The numeric field `k` of record `d` converts through Python `int`
without raising. -/
def intField_ok (d : RawDict) (k : String) (dflt : PyVal) : Prop :=
  (pyint (dget d k dflt)).isOk = true

/-! ## Theorems -/

/-- An `Except` that reports ok carries an ok value. -/
theorem except_isOk_exists {ε α : Type} {e : Except ε α} (h : e.isOk = true) :
    ∃ a, e = .ok a := by
  cases e with
  | error err => simp [Except.isOk, Except.toBool] at h
  | ok a => exact ⟨a, rfl⟩

/-- Appending an underscore-separated suffix changes a string
(length-based). -/
theorem append_underscore_ne (s t : String) : s ++ "_" ++ t ≠ s := by
  intro h
  have hlen := congrArg String.length h
  have h1 : ("_" : String).length = 1 := rfl
  rw [String.length_append, String.length_append, h1] at hlen
  omega

/-- Sorting a two-element list is independent of the input order. -/
theorem pySorted_pair (a b : String) : pySorted [a, b] = pySorted [b, a] := by
  have h1 : ∀ x y : String, pySorted [x, y] = if x ≤ y then [x, y] else [y, x] := by
    intro x y
    simp [pySorted, List.insertionSort, List.orderedInsert]
  rw [h1, h1]
  rcases le_or_lt a b with hab | hab
  · rcases le_or_lt b a with hba | hba
    · have heq : a = b := le_antisymm hab hba
      subst heq
      rfl
    · rw [if_pos hab, if_neg (not_le.mpr hba)]
  · rw [if_neg (not_le.mpr hab), if_pos hab.le]

/-- C1: for every cache state, key and default, `CacheManager.get` returns
the stored value exactly when the elapsed time since the entry's creation
timestamp is strictly below its timeout; otherwise (entry absent, or
elapsed time at least the timeout) it returns the default, and in the
expired case the entry is removed from the store. -/
theorem cache_get_fresh_iff :
    ∀ (α : Type) (st : Store (Entry α)) (now : ℚ) (key : String) (default : α),
      (∀ e : Entry α, sLookup st (cache_key_ns ++ key) = some e →
        (now - e.timestamp < e.timeout →
          CacheManager.get now st key default = (e.data, st)) ∧
        (e.timeout ≤ now - e.timestamp →
          CacheManager.get now st key default = (default, sErase st (cache_key_ns ++ key)))) ∧
      (sLookup st (cache_key_ns ++ key) = none →
        CacheManager.get now st key default = (default, st)) := by
  intro α st now key default
  constructor
  · intro e he
    constructor
    · intro hfresh
      simp [CacheManager.get, he, hfresh]
    · intro hexp
      simp [CacheManager.get, he, not_lt.mpr hexp]
  · intro hnone
    simp [CacheManager.get, hnone]

/-- C1 witness: a fresh hit returns the stored `5` and keeps the entry, an
expired read returns the default and evicts, an absent key returns the
default. -/
theorem cache_get_fresh_iff_witness :
    CacheManager.get (α := ℚ) 10 [(cache_key_ns ++ "k", ⟨5, 0, 60⟩)] "k" 0 =
      (5, [(cache_key_ns ++ "k", ⟨5, 0, 60⟩)]) ∧
    CacheManager.get (α := ℚ) 100 [(cache_key_ns ++ "k", ⟨5, 0, 60⟩)] "k" 0 = (0, []) ∧
    CacheManager.get (α := ℚ) 10 [] "k" 7 = (7, []) := by
  refine ⟨?_, ?_, ?_⟩
  · exact ((cache_get_fresh_iff ℚ [(cache_key_ns ++ "k", ⟨5, 0, 60⟩)] 10 "k" 0).1 ⟨5, 0, 60⟩
      (by simp [sLookup, List.find?])).1 (by norm_num)
  · simpa [sErase] using ((cache_get_fresh_iff ℚ [(cache_key_ns ++ "k", ⟨5, 0, 60⟩)] 100 "k" 0).1
      ⟨5, 0, 60⟩ (by simp [sLookup, List.find?])).2 (by norm_num)
  · exact (cache_get_fresh_iff ℚ [] 10 "k" 7).2 (by simp [sLookup, List.find?])

/-- C2: evaluation of the code at the failing input. On an empty store,
`get_or_compute` called with one argument stores the freshly computed
result under the bare base key and leaves nothing under the
argument-qualified key `get_cache_key(key, args)` — for every possible
hash function. The producer does run (`calls = 1`). -/
theorem get_or_compute_stores_under_base_key :
    ∀ (md5hex8 : String → String) (now : ℚ),
      sLookup (CacheManager.get_or_compute (V := Nat) md5hex8 ⟨60⟩ now [] "prices"
          (fun _ => some 42) (some 60) ["BTCUSDT"]).store
        (get_cache_key md5hex8 "prices" ["BTCUSDT"]) = none ∧
      sLookup (CacheManager.get_or_compute (V := Nat) md5hex8 ⟨60⟩ now [] "prices"
          (fun _ => some 42) (some 60) ["BTCUSDT"]).store
        (get_cache_key md5hex8 "prices" []) = some ⟨some 42, now, 60⟩ ∧
      (CacheManager.get_or_compute (V := Nat) md5hex8 ⟨60⟩ now [] "prices"
          (fun _ => some 42) (some 60) ["BTCUSDT"]).calls = 1 := by
  intro md5 now
  have hne : (cache_key_ns ++ "prices" ++ "_" ++
      md5 (pyStrList (pySorted ["BTCUSDT"]))) ≠ cache_key_ns ++ "prices" :=
    append_underscore_ne (cache_key_ns ++ "prices") _
  refine ⟨?_, ?_, ?_⟩
  · have hbeq : ((cache_key_ns ++ "prices") == (cache_key_ns ++ "prices" ++ "_" ++
        md5 (pyStrList (pySorted ["BTCUSDT"])))) = false :=
      beq_eq_false_iff_ne.mpr (Ne.symm hne)
    simp [CacheManager.get_or_compute, CacheManager.is_expired, CacheManager.set,
      sInsert, sErase, sLookup, List.find?, get_cache_key, hbeq]
  · simp [CacheManager.get_or_compute, CacheManager.is_expired, CacheManager.set,
      sInsert, sErase, sLookup, List.find?, get_cache_key]
  · simp [CacheManager.get_or_compute, CacheManager.is_expired, sLookup, List.find?]

/-- C6: `get_cache_key` without arguments is the namespaced key; with two
arguments it is independent of their order; and the two-argument key
differs from the bare key — all for every hash function. -/
theorem get_cache_key_props :
    ∀ (md5hex8 : String → String) (name a b : String),
      get_cache_key md5hex8 name [] = cache_key_ns ++ name ∧
      get_cache_key md5hex8 name [a, b] = get_cache_key md5hex8 name [b, a] ∧
      get_cache_key md5hex8 name [a, b] ≠ get_cache_key md5hex8 name [] := by
  intro md5 name a b
  refine ⟨rfl, ?_, ?_⟩
  · simp [get_cache_key, pySorted_pair a b]
  · simp only [get_cache_key]
    exact append_underscore_ne (cache_key_ns ++ name) _

/-- C8: trade aggregation over the empty collection returns the all-zero
summary (zero totals, zero win rate, zero mean trade size, empty
group-bys), as an `ok` value — never an exception or null — whatever the
column layout. -/
theorem process_trades_data_empty_all_zero :
    ∀ b1 b2 b3 b4 b5 b6 b7 : Bool,
      process_trades_data ⟨b1, b2, b3, b4, b5, b6, b7, []⟩ =
        .ok { total_trades := 0, total_volume := 0, total_commission := 0,
              win_rate := some 0, avg_trade_size := some 0,
              trades_by_symbol := [], trades_by_day := [] } := by
  intro b1 b2 b3 b4 b5 b6 b7
  rfl

/-- C9: when the base-key entry is fresh but its payload is Python `None`,
`get_or_compute` does not serve the cached `None`: it invokes the
producer exactly once, overwrites the entry with the producer's result
and a fresh timestamp, and returns that result. -/
theorem get_or_compute_recomputes_none :
    ∀ (V : Type) (md5hex8 : String → String) (cm : CacheManager) (now : ℚ)
      (st : Store (Entry (Option V))) (key : String) (f : List String → Option V)
      (timeout : Option ℚ) (args : List String) (e : Entry (Option V)),
      sLookup st (cache_key_ns ++ key) = some e →
      now - e.timestamp < e.timeout →
      e.data = none →
      CacheManager.get_or_compute md5hex8 cm now st key f timeout args =
        ⟨f args, sInsert st (cache_key_ns ++ key)
          ⟨f args, now, timeout.getD cm.default_timeout⟩, 1⟩ := by
  intro V md5 cm now st key f timeout args e he hfresh hdata
  simp [CacheManager.get_or_compute, CacheManager.is_expired, CacheManager.get,
    CacheManager.set, he, hdata, hfresh, not_le.mpr hfresh]

/-- C9 witness: a fresh `None` entry at time 10 is recomputed (producer
result `some 7`, one call, entry overwritten with timestamp 10). -/
theorem get_or_compute_recomputes_none_witness :
    CacheManager.get_or_compute (V := Nat) (fun _ => "") ⟨60⟩ 10
      [(cache_key_ns ++ "k", ⟨none, 0, 60⟩)] "k" (fun _ => some 7) none [] =
      ⟨some 7, [(cache_key_ns ++ "k", ⟨some 7, 10, 60⟩)], 1⟩ := by
  simpa [sInsert, sErase] using get_or_compute_recomputes_none Nat (fun _ => "") ⟨60⟩ 10
    [(cache_key_ns ++ "k", ⟨none, 0, 60⟩)] "k" (fun _ => some 7) none []
    ⟨none, 0, 60⟩ (by simp [sLookup, List.find?]) (by norm_num) rfl

/-- C4 counterexample: a position with `size = 0`, entry 100 and mark 110
is not short, so the claim gives `+10`, but the code flips the sign for
every non-long position and yields `-10`. -/
theorem pnl_percentage_flips_at_zero_size :
    Position.pnl_percentage
        { symbol := .vstr "", position_side := .vstr "", size := 0, entry_price := 100,
          mark_price := 110, unrealized_pnl := 0, percentage := 0, leverage := 1,
          margin_type := .vstr "", notional := 0, update_time := 0 } = -10 ∧
    pnl_percentage_claimed
        { symbol := .vstr "", position_side := .vstr "", size := 0, entry_price := 100,
          mark_price := 110, unrealized_pnl := 0, percentage := 0, leverage := 1,
          margin_type := .vstr "", notional := 0, update_time := 0 } = 10 ∧
    (-10 : ℚ) ≠ 10 := by
  refine ⟨?_, ?_, by norm_num⟩ <;>
    norm_num [Position.pnl_percentage, pnl_percentage_claimed, Position.is_long]

/-- C4 amended: the derived PnL percentage is
`(mark - entry) / entry * 100`, sign-flipped whenever the position is not
long (`size ≤ 0`, not only `size < 0`): it matches the claimed formula on
every position with nonzero size, is exactly `0` when the entry price is
`0`, and equals the plain (resp. negated) formula for long
(resp. non-long) positions. -/
theorem pnl_percentage_formula :
    ∀ p : Position,
      (p.size ≠ 0 → p.pnl_percentage = pnl_percentage_claimed p) ∧
      (p.entry_price = 0 → p.pnl_percentage = 0) ∧
      (p.entry_price ≠ 0 → 0 < p.size →
        p.pnl_percentage = (p.mark_price - p.entry_price) / p.entry_price * 100) ∧
      (p.entry_price ≠ 0 → p.size ≤ 0 →
        p.pnl_percentage = -((p.mark_price - p.entry_price) / p.entry_price * 100)) := by
  intro p
  refine ⟨?_, ?_, ?_, ?_⟩
  · intro hs
    by_cases he : p.entry_price = 0
    · simp [Position.pnl_percentage, pnl_percentage_claimed, he]
    · rcases lt_or_gt_of_ne hs with hneg | hpos
      · simp [Position.pnl_percentage, pnl_percentage_claimed, he, Position.is_long,
          not_lt.mpr hneg.le, hneg]
      · simp [Position.pnl_percentage, pnl_percentage_claimed, he, Position.is_long,
          hpos, not_lt.mpr hpos.le]
  · intro he
    simp [Position.pnl_percentage, he]
  · intro he hpos
    simp [Position.pnl_percentage, he, Position.is_long, hpos]
  · intro he hnonpos
    simp [Position.pnl_percentage, he, Position.is_long, not_lt.mpr hnonpos]

/-- C4 witness: entry 100, mark 110 gives `+10` percent long and `-10`
percent short, and a zero entry price gives exactly `0`. -/
theorem pnl_percentage_formula_witness :
    Position.pnl_percentage
        { symbol := .vstr "", position_side := .vstr "", size := 1, entry_price := 100,
          mark_price := 110, unrealized_pnl := 0, percentage := 0, leverage := 1,
          margin_type := .vstr "", notional := 0, update_time := 0 } = 10 ∧
    Position.pnl_percentage
        { symbol := .vstr "", position_side := .vstr "", size := -1, entry_price := 100,
          mark_price := 110, unrealized_pnl := 0, percentage := 0, leverage := 1,
          margin_type := .vstr "", notional := 0, update_time := 0 } = -10 ∧
    Position.pnl_percentage
        { symbol := .vstr "", position_side := .vstr "", size := 1, entry_price := 0,
          mark_price := 110, unrealized_pnl := 0, percentage := 0, leverage := 1,
          margin_type := .vstr "", notional := 0, update_time := 0 } = 0 := by
  refine ⟨?_, ?_, ?_⟩
  · have h := ((pnl_percentage_formula
      { symbol := .vstr "", position_side := .vstr "", size := 1, entry_price := 100,
        mark_price := 110, unrealized_pnl := 0, percentage := 0, leverage := 1,
        margin_type := .vstr "", notional := 0, update_time := 0 }).2.2.1
      (by norm_num) (by norm_num))
    rw [h]
    norm_num
  · have h := ((pnl_percentage_formula
      { symbol := .vstr "", position_side := .vstr "", size := -1, entry_price := 100,
        mark_price := 110, unrealized_pnl := 0, percentage := 0, leverage := 1,
        margin_type := .vstr "", notional := 0, update_time := 0 }).2.2.2
      (by norm_num) (by norm_num))
    rw [h]
    norm_num
  · exact ((pnl_percentage_formula
      { symbol := .vstr "", position_side := .vstr "", size := 1, entry_price := 0,
        mark_price := 110, unrealized_pnl := 0, percentage := 0, leverage := 1,
        margin_type := .vstr "", notional := 0, update_time := 0 }).2.1 rfl)

/-- C5 counterexample: a record whose `walletBalance` field holds the
non-numeric string `abc` makes `Asset.from_api_response` raise
`ValueError` (from `float`), instead of defaulting — so the shaping
functions are not total on malformed values. -/
theorem asset_shaping_raises_on_malformed :
    Asset.from_api_response 0 [("walletBalance", .vstr "abc")] = .error .valueError := by
  simp [Asset.from_api_response, dget, List.find?, pyfloat, parseFloatLit?, parseMantissa?,
    splitSign, decDigits?, Except.instMonad, Except.bind, Except.pure]

/-- C5 amended: each record-shaping function returns a normalized value
object on every record whose numeric fields are absent or convertible;
missing fields default to zero / the empty string (leverage to 1,
orderListId to -1). A present non-numeric field value, however, raises
rather than being defaulted (see the counterexample): the bare `float` /
`int` conversions, not `safe_float`, are used by the models. -/
theorem record_shaping_defaults_and_totality :
    (∀ now : ℚ, Asset.from_api_response now [] = .ok
      { symbol := .vstr "", wallet_balance := 0, unrealized_pnl := 0, margin_balance := 0,
        maint_margin := 0, initial_margin := 0, position_initial_margin := 0,
        open_order_initial_margin := 0, cross_wallet_balance := 0, cross_unpnl := 0,
        available_balance := 0, max_withdraw_amount := 0, margin_available := .vbool false,
        update_time := now }) ∧
    (∀ now : ℚ, Position.from_api_response now [] = .ok
      { symbol := .vstr "", position_side := .vstr "", size := 0, entry_price := 0,
        mark_price := 0, unrealized_pnl := 0, percentage := 0, leverage := 1,
        margin_type := .vstr "", notional := 0, update_time := now }) ∧
    (Trade.from_api_response [] = .ok
      { symbol := .vstr "", side := .vstr "", quantity := 0, price := 0, commission := 0,
        commission_asset := .vstr "", time := 0, order_id := 0, order_list_id := -1,
        real_pnl := 0 }) ∧
    (IncomeRecord.from_api_response [] = .ok
      { symbol := .vstr "", income_type := .vstr "", income := 0, asset := .vstr "",
        time := 0, transaction_id := 0, trade_id := 0 }) ∧
    (∀ (now : ℚ) (d : RawDict),
      floatField_ok d "walletBalance" (.vint 0) → floatField_ok d "unrealizedPnl" (.vint 0) →
      floatField_ok d "marginBalance" (.vint 0) → floatField_ok d "maintMargin" (.vint 0) →
      floatField_ok d "initialMargin" (.vint 0) →
      floatField_ok d "positionInitialMargin" (.vint 0) →
      floatField_ok d "openOrderInitialMargin" (.vint 0) →
      floatField_ok d "crossWalletBalance" (.vint 0) →
      floatField_ok d "crossUnPnl" (.vint 0) → floatField_ok d "availableBalance" (.vint 0) →
      floatField_ok d "maxWithdrawAmount" (.vint 0) →
      (Asset.from_api_response now d).isOk = true) ∧
    (∀ (now : ℚ) (d : RawDict),
      floatField_ok d "size" (.vint 0) → floatField_ok d "entryPrice" (.vint 0) →
      floatField_ok d "markPrice" (.vint 0) → floatField_ok d "unrealized_pnl" (.vint 0) →
      floatField_ok d "percentage" (.vint 0) → floatField_ok d "leverage" (.vint 1) →
      floatField_ok d "notional" (.vint 0) →
      (Position.from_api_response now d).isOk = true) ∧
    (∀ d : RawDict,
      floatField_ok d "qty" (.vint 0) → floatField_ok d "price" (.vint 0) →
      floatField_ok d "commission" (.vint 0) → intField_ok d "time" (.vint 0) →
      intField_ok d "orderId" (.vint 0) → intField_ok d "orderListId" (.vint (-1)) →
      (Trade.from_api_response d).isOk = true) ∧
    (∀ d : RawDict,
      floatField_ok d "income" (.vint 0) → intField_ok d "time" (.vint 0) →
      intField_ok d "tranId" (.vint 0) → intField_ok d "tradeId" (.vint 0) →
      (IncomeRecord.from_api_response d).isOk = true) := by
  refine ⟨?_, ?_, ?_, ?_, ?_, ?_, ?_, ?_⟩
  · intro now
    simp [Asset.from_api_response, dget, List.find?, pyfloat, Except.instMonad,
      Except.bind, Except.pure]
  · intro now
    simp [Position.from_api_response, dget, List.find?, pyfloat, Except.instMonad,
      Except.bind, Except.pure]
  · simp [Trade.from_api_response, dget, List.find?, pyfloat, pyint, Except.instMonad,
      Except.bind, Except.pure]
  · simp [IncomeRecord.from_api_response, dget, List.find?, pyfloat, pyint,
      Except.instMonad, Except.bind, Except.pure]
  · intro now d h1 h2 h3 h4 h5 h6 h7 h8 h9 h10 h11
    obtain ⟨q1, e1⟩ := except_isOk_exists h1
    obtain ⟨q2, e2⟩ := except_isOk_exists h2
    obtain ⟨q3, e3⟩ := except_isOk_exists h3
    obtain ⟨q4, e4⟩ := except_isOk_exists h4
    obtain ⟨q5, e5⟩ := except_isOk_exists h5
    obtain ⟨q6, e6⟩ := except_isOk_exists h6
    obtain ⟨q7, e7⟩ := except_isOk_exists h7
    obtain ⟨q8, e8⟩ := except_isOk_exists h8
    obtain ⟨q9, e9⟩ := except_isOk_exists h9
    obtain ⟨q10, e10⟩ := except_isOk_exists h10
    obtain ⟨q11, e11⟩ := except_isOk_exists h11
    simp [Asset.from_api_response, e1, e2, e3, e4, e5, e6, e7, e8, e9, e10, e11,
      Except.instMonad, Except.bind, Except.pure, Except.isOk, Except.toBool]
  · intro now d h1 h2 h3 h4 h5 h6 h7
    obtain ⟨q1, e1⟩ := except_isOk_exists h1
    obtain ⟨q2, e2⟩ := except_isOk_exists h2
    obtain ⟨q3, e3⟩ := except_isOk_exists h3
    obtain ⟨q4, e4⟩ := except_isOk_exists h4
    obtain ⟨q5, e5⟩ := except_isOk_exists h5
    obtain ⟨q6, e6⟩ := except_isOk_exists h6
    obtain ⟨q7, e7⟩ := except_isOk_exists h7
    simp [Position.from_api_response, e1, e2, e3, e4, e5, e6, e7,
      Except.instMonad, Except.bind, Except.pure, Except.isOk, Except.toBool]
  · intro d h1 h2 h3 h4 h5 h6
    obtain ⟨q1, e1⟩ := except_isOk_exists h1
    obtain ⟨q2, e2⟩ := except_isOk_exists h2
    obtain ⟨q3, e3⟩ := except_isOk_exists h3
    obtain ⟨n4, e4⟩ := except_isOk_exists h4
    obtain ⟨n5, e5⟩ := except_isOk_exists h5
    obtain ⟨n6, e6⟩ := except_isOk_exists h6
    simp [Trade.from_api_response, e1, e2, e3, e4, e5, e6,
      Except.instMonad, Except.bind, Except.pure, Except.isOk, Except.toBool]
  · intro d h1 h2 h3 h4
    obtain ⟨q1, e1⟩ := except_isOk_exists h1
    obtain ⟨n2, e2⟩ := except_isOk_exists h2
    obtain ⟨n3, e3⟩ := except_isOk_exists h3
    obtain ⟨n4, e4⟩ := except_isOk_exists h4
    simp [IncomeRecord.from_api_response, e1, e2, e3, e4,
      Except.instMonad, Except.bind, Except.pure, Except.isOk, Except.toBool]

/-- C5 witness: each shaping function succeeds on a small record with a
numeric field present and the rest missing. -/
theorem record_shaping_defaults_and_totality_witness :
    (Asset.from_api_response 1 [("walletBalance", .vint 5)]).isOk = true ∧
    (Position.from_api_response 1 [("size", .vfloat 2)]).isOk = true ∧
    (Trade.from_api_response [("qty", .vint 3)]).isOk = true ∧
    (IncomeRecord.from_api_response [("income", .vint 4)]).isOk = true := by
  refine ⟨?_, ?_, ?_, ?_⟩
  · exact record_shaping_defaults_and_totality.2.2.2.2.1 1 [("walletBalance", .vint 5)]
      (by simp [floatField_ok, dget, List.find?, pyfloat, Except.isOk, Except.toBool])
      (by simp [floatField_ok, dget, List.find?, pyfloat, Except.isOk, Except.toBool])
      (by simp [floatField_ok, dget, List.find?, pyfloat, Except.isOk, Except.toBool])
      (by simp [floatField_ok, dget, List.find?, pyfloat, Except.isOk, Except.toBool])
      (by simp [floatField_ok, dget, List.find?, pyfloat, Except.isOk, Except.toBool])
      (by simp [floatField_ok, dget, List.find?, pyfloat, Except.isOk, Except.toBool])
      (by simp [floatField_ok, dget, List.find?, pyfloat, Except.isOk, Except.toBool])
      (by simp [floatField_ok, dget, List.find?, pyfloat, Except.isOk, Except.toBool])
      (by simp [floatField_ok, dget, List.find?, pyfloat, Except.isOk, Except.toBool])
      (by simp [floatField_ok, dget, List.find?, pyfloat, Except.isOk, Except.toBool])
      (by simp [floatField_ok, dget, List.find?, pyfloat, Except.isOk, Except.toBool])
  · exact record_shaping_defaults_and_totality.2.2.2.2.2.1 1 [("size", .vfloat 2)]
      (by simp [floatField_ok, dget, List.find?, pyfloat, Except.isOk, Except.toBool])
      (by simp [floatField_ok, dget, List.find?, pyfloat, Except.isOk, Except.toBool])
      (by simp [floatField_ok, dget, List.find?, pyfloat, Except.isOk, Except.toBool])
      (by simp [floatField_ok, dget, List.find?, pyfloat, Except.isOk, Except.toBool])
      (by simp [floatField_ok, dget, List.find?, pyfloat, Except.isOk, Except.toBool])
      (by simp [floatField_ok, dget, List.find?, pyfloat, Except.isOk, Except.toBool])
      (by simp [floatField_ok, dget, List.find?, pyfloat, Except.isOk, Except.toBool])
  · exact record_shaping_defaults_and_totality.2.2.2.2.2.2.1 [("qty", .vint 3)]
      (by simp [floatField_ok, dget, List.find?, pyfloat, Except.isOk, Except.toBool])
      (by simp [floatField_ok, dget, List.find?, pyfloat, Except.isOk, Except.toBool])
      (by simp [floatField_ok, dget, List.find?, pyfloat, Except.isOk, Except.toBool])
      (by simp [intField_ok, dget, List.find?, pyint, Except.isOk, Except.toBool])
      (by simp [intField_ok, dget, List.find?, pyint, Except.isOk, Except.toBool])
      (by simp [intField_ok, dget, List.find?, pyint, Except.isOk, Except.toBool])
  · exact record_shaping_defaults_and_totality.2.2.2.2.2.2.2 [("income", .vint 4)]
      (by simp [floatField_ok, dget, List.find?, pyfloat, Except.isOk, Except.toBool])
      (by simp [intField_ok, dget, List.find?, pyint, Except.isOk, Except.toBool])
      (by simp [intField_ok, dget, List.find?, pyint, Except.isOk, Except.toBool])
      (by simp [intField_ok, dget, List.find?, pyint, Except.isOk, Except.toBool])

/-- C3 counterexample: an account snapshot with `total_balance = 100` and
`total_unrealized_pnl = 100` makes the PnL-percentage divisor
`balance - pnl` zero while `balance > 0`, and `process_account_summary`
raises `ZeroDivisionError` instead of yielding 0. -/
theorem process_account_summary_zero_div_raises :
    process_account_summary 0
        [("total_balance", .vint 100), ("total_unrealized_pnl", .vint 100)]
      = .error .zeroDivision := by
  simp [process_account_summary, AccountSummary.from_api_response, asPyList, dget,
    shapeAssets, shapePositions, pyfloat, pydiv, AccountSummary.active_positions_count,
    List.find?, Except.instMonad, Except.bind, Except.pure]

/-- C3 amended: for every successfully shaped account snapshot, leverage
usage is total exposure over total balance and PnL percentage is
`pnl / (balance - pnl) * 100` when the balance is positive and the
divisor is nonzero, both are `0` when the balance is not positive — but
when the balance is positive and equals the unrealized PnL, the zero
divisor `balance - pnl` raises `ZeroDivisionError`; it is not defined
as 0. -/
theorem process_account_summary_division_behavior :
    ∀ (now : ℚ) (d : RawDict) (s : AccountSummary),
      AccountSummary.from_api_response now d = .ok s →
      (0 < s.total_balance → s.total_balance ≠ s.total_unrealized_pnl →
        ∃ out : ProcSummary, process_account_summary now d = .ok out ∧
          out.leverage_usage = (s.positions.map (fun p => |p.notional|)).sum / s.total_balance ∧
          out.pnl_percentage =
            s.total_unrealized_pnl / (s.total_balance - s.total_unrealized_pnl) * 100) ∧
      (¬ 0 < s.total_balance →
        ∃ out : ProcSummary, process_account_summary now d = .ok out ∧
          out.leverage_usage = 0 ∧ out.pnl_percentage = 0) ∧
      (0 < s.total_balance → s.total_balance = s.total_unrealized_pnl →
        process_account_summary now d = .error .zeroDivision) := by
  intro now d s hs
  refine ⟨?_, ?_, ?_⟩
  · intro hb hne
    have hb0 : s.total_balance ≠ 0 := ne_of_gt hb
    have hd0 : s.total_balance - s.total_unrealized_pnl ≠ 0 := sub_ne_zero.mpr hne
    simp [process_account_summary, hs, Except.instMonad, Except.bind, Except.pure,
      pydiv, hb, hb0, hd0]
  · intro hb
    simp [process_account_summary, hs, Except.instMonad, Except.bind, Except.pure, hb]
  · intro hb heq
    have hd0 : s.total_balance - s.total_unrealized_pnl = 0 := sub_eq_zero_of_eq heq
    simp [process_account_summary, hs, Except.instMonad, Except.bind, Except.pure,
      pydiv, hb, ne_of_gt hb, hd0]

/-- C3 witness: a positive-balance snapshot (balance 100, PnL 0) yields an
ok summary with zero leverage usage and zero PnL percentage, and so does
the degenerate all-zero snapshot. -/
theorem process_account_summary_division_behavior_witness :
    (∃ out : ProcSummary,
      process_account_summary 0 [("total_balance", PyVal.vint 100)] = .ok out ∧
      out.leverage_usage = 0 ∧ out.pnl_percentage = 0) ∧
    (∃ out : ProcSummary, process_account_summary 0 [] = .ok out ∧
      out.leverage_usage = 0 ∧ out.pnl_percentage = 0) := by
  constructor
  · obtain ⟨out, hout, hl, hp⟩ :=
      (process_account_summary_division_behavior 0 [("total_balance", PyVal.vint 100)]
        ⟨100, 0, 0, 0, 0, [], [], 0⟩
        (by simp [AccountSummary.from_api_response, asPyList, dget, List.find?,
          shapeAssets, shapePositions, pyfloat, Except.instMonad, Except.bind,
          Except.pure])).1 (by norm_num) (by norm_num)
    refine ⟨out, hout, ?_, ?_⟩
    · rw [hl]
      norm_num
    · rw [hp]
      norm_num
  · obtain ⟨out, hout, hl, hp⟩ :=
      (process_account_summary_division_behavior 0 [] ⟨0, 0, 0, 0, 0, [], [], 0⟩
        (by simp [AccountSummary.from_api_response, asPyList, dget, List.find?,
          shapeAssets, shapePositions, pyfloat, Except.instMonad, Except.bind,
          Except.pure])).2.1 (by norm_num)
    exact ⟨out, hout, hl, hp⟩

/-- An element of a successful shaping run comes from some input record. -/
theorem shapeAll_mem :
    ∀ {ps : List RawDict} {l : List ProcPos}, shapeAllPositions ps = .ok l →
      ∀ {r : ProcPos}, r ∈ l → ∃ p ∈ ps, shapeProcPos p = .ok r := by
  intro ps
  induction ps with
  | nil =>
    intro l h r hr
    simp [shapeAllPositions] at h
    subst h
    simp at hr
  | cons p rest ih =>
    intro l h r hr
    cases hp : shapeProcPos p with
    | error e =>
      simp [shapeAllPositions, hp, Except.instMonad, Except.bind] at h
    | ok r0 =>
      cases ht : shapeAllPositions rest with
      | error e =>
        simp [shapeAllPositions, hp, ht, Except.instMonad, Except.bind] at h
      | ok tail =>
        have hl : l = r0 :: tail := by
          simp [shapeAllPositions, hp, ht, Except.instMonad, Except.bind, Except.pure] at h
          exact h.symm
        subst hl
        rcases List.mem_cons.mp hr with hre | hrt
        · exact ⟨p, List.mem_cons_self p rest, by rw [hp, hre]⟩
        · obtain ⟨q, hq, hqs⟩ := ih ht hrt
          exact ⟨q, List.mem_cons_of_mem p hq, hqs⟩

/-- A successfully shaped position record carries the absolute input size
and notional, the side derived from the input size sign, and the raw
unrealized PnL. -/
theorem shapeProcPos_fields :
    ∀ {p : RawDict} {r : ProcPos}, shapeProcPos p = .ok r →
      r.size = |safe_float (dget p "size" (.vint 0)) 0| ∧
      r.notional = |safe_float (dget p "notional" (.vint 0)) 0| ∧
      r.side = (if 0 < safe_float (dget p "size" (.vint 0)) 0 then "LONG" else "SHORT") ∧
      r.unrealized_pnl = safe_float (dget p "unrealized_pnl" (.vint 0)) 0 := by
  intro p r h
  cases hf : format_symbol (dget p "symbol" (.vstr "")) with
  | error e =>
    simp [shapeProcPos, hf, Except.instMonad, Except.bind] at h
  | ok fs =>
    simp [shapeProcPos, hf, Except.instMonad, Except.bind, Except.pure] at h
    subst h
    simp

/-- C10: every record produced by `process_positions_data` has a
non-negative `size` equal to the absolute input size and a non-negative
`notional` equal to the absolute input notional; the sign information is
carried by the `side` field. -/
theorem process_positions_abs_size_notional :
    ∀ (positions : List RawDict) (out : List ProcPos) (r : ProcPos),
      process_positions_data positions = .ok out → r ∈ out →
      0 ≤ r.size ∧ 0 ≤ r.notional ∧
      ∃ p ∈ positions,
        r.size = |safe_float (dget p "size" (.vint 0)) 0| ∧
        r.notional = |safe_float (dget p "notional" (.vint 0)) 0| ∧
        r.side = (if 0 < safe_float (dget p "size" (.vint 0)) 0 then "LONG" else "SHORT") := by
  intro ps out r hok hr
  cases hsh : shapeAllPositions ps with
  | error e =>
    simp [process_positions_data, hsh, Except.instMonad, Except.bind] at hok
  | ok l =>
    have hout : out = l.mergeSort (fun a b => decide (|b.unrealized_pnl| ≤ |a.unrealized_pnl|)) := by
      simp [process_positions_data, hsh, Except.instMonad, Except.bind, Except.pure] at hok
      exact hok.symm
    subst hout
    have hrl : r ∈ l := List.mem_mergeSort.mp hr
    obtain ⟨p, hp, hps⟩ := shapeAll_mem hsh hrl
    obtain ⟨h1, h2, h3, _⟩ := shapeProcPos_fields hps
    exact ⟨by rw [h1]; exact abs_nonneg _, by rw [h2]; exact abs_nonneg _,
      p, hp, h1, h2, h3⟩

/-- C10 witness: a short position with raw size -2 and raw notional -5 is
shaped to size 2 and notional 5, both non-negative. -/
theorem process_positions_abs_size_notional_witness :
    0 ≤ ({ symbol := .vstr "BTCUSDT", formatted_symbol := "BTC/USDT", side := "SHORT",
           size := 2, entry_price := 0, mark_price := 0, unrealized_pnl := 0,
           pnl_percentage := 0, leverage := 1, notional := 5, margin_type := .vstr "cross",
           pnl_color := "gray" } : ProcPos).size ∧
    0 ≤ ({ symbol := .vstr "BTCUSDT", formatted_symbol := "BTC/USDT", side := "SHORT",
           size := 2, entry_price := 0, mark_price := 0, unrealized_pnl := 0,
           pnl_percentage := 0, leverage := 1, notional := 5, margin_type := .vstr "cross",
           pnl_color := "gray" } : ProcPos).notional := by
  have hfs : format_symbol (PyVal.vstr "BTCUSDT") = .ok "BTC/USDT" := rfl
  have hshape : shapeProcPos [("size", PyVal.vint (-2)), ("notional", PyVal.vint (-5)),
      ("symbol", PyVal.vstr "BTCUSDT")] =
      .ok { symbol := .vstr "BTCUSDT", formatted_symbol := "BTC/USDT", side := "SHORT",
            size := 2, entry_price := 0, mark_price := 0, unrealized_pnl := 0,
            pnl_percentage := 0, leverage := 1, notional := 5, margin_type := .vstr "cross",
            pnl_color := "gray" } := by
    simp [shapeProcPos, safe_float, dget, List.find?, pyfloat, hfs, Except.instMonad,
      Except.bind, Except.pure, Except.toOption, Option.getD]
  have hev : process_positions_data
      [[("size", PyVal.vint (-2)), ("notional", PyVal.vint (-5)),
        ("symbol", PyVal.vstr "BTCUSDT")]] =
      .ok [{ symbol := .vstr "BTCUSDT", formatted_symbol := "BTC/USDT", side := "SHORT",
             size := 2, entry_price := 0, mark_price := 0, unrealized_pnl := 0,
             pnl_percentage := 0, leverage := 1, notional := 5, margin_type := .vstr "cross",
             pnl_color := "gray" }] := by
    simp [process_positions_data, shapeAllPositions, hshape, Except.instMonad, Except.bind,
      Except.pure, List.mergeSort_singleton]
  have h := process_positions_abs_size_notional
    [[("size", PyVal.vint (-2)), ("notional", PyVal.vint (-5)),
      ("symbol", PyVal.vstr "BTCUSDT")]] _
    { symbol := .vstr "BTCUSDT", formatted_symbol := "BTC/USDT", side := "SHORT",
      size := 2, entry_price := 0, mark_price := 0, unrealized_pnl := 0,
      pnl_percentage := 0, leverage := 1, notional := 5, margin_type := .vstr "cross",
      pnl_color := "gray" } hev (by simp)
  exact ⟨h.1, h.2.1⟩
/-- A nonempty list of negative rationals has a negative sum. -/
theorem sum_neg_of_all_neg :
    ∀ l : List ℚ, (∀ x ∈ l, x < 0) → l ≠ [] → l.sum < 0 := by
  intro l
  induction l with
  | nil => intro _ h; exact absurd rfl h
  | cons x xs ih =>
    intro hall _
    have hx : x < 0 := hall x (List.mem_cons_self x xs)
    rcases eq_or_ne xs [] with hxs | hxs
    · subst hxs; simpa using hx
    · have hs : xs.sum < 0 := ih (fun y hy => hall y (List.mem_cons_of_mem x hy)) hxs
      simpa using add_neg hx hs

/-- With no NaN cells, the nonzero-returns selection is the nonzero
filter of the column values (wrapped back in `some`). -/
theorem returnsNZ_eq :
    ∀ (rows : List TradeRow), (∀ r ∈ rows, (r.realized_pnl).isSome = true) →
      (rows.map (fun r => r.realized_pnl)).filter
          (fun c => match c with | some q => decide (q ≠ 0) | none => true)
        = ((rows.filterMap (fun r => r.realized_pnl)).filter
            (fun q => decide (q ≠ 0))).map some := by
  intro rows
  induction rows with
  | nil => intro _; simp
  | cons r rest ih =>
    intro h
    obtain ⟨q, hq⟩ := Option.isSome_iff_exists.mp (h r (List.mem_cons_self r rest))
    have hrest := ih (fun x hx => h x (List.mem_cons_of_mem r hx))
    simp at hrest
    by_cases h0 : q = 0
    · simp [hq, h0, hrest]
    · simp [hq, h0, hrest]

/-- With no NaN cells, the winning-trades selection is the positive
filter of the column values. -/
theorem winning_eq :
    ∀ (rows : List TradeRow), (∀ r ∈ rows, (r.realized_pnl).isSome = true) →
      (((rows.map (fun r => r.realized_pnl)).filter
          (fun c => match c with | some q => decide (q ≠ 0) | none => true)).filterMap
        (fun c => c.bind (fun q => if 0 < q then some q else none)))
        = (rows.filterMap (fun r => r.realized_pnl)).filter (fun q => decide (0 < q)) := by
  intro rows
  induction rows with
  | nil => intro _; simp
  | cons r rest ih =>
    intro h
    obtain ⟨q, hq⟩ := Option.isSome_iff_exists.mp (h r (List.mem_cons_self r rest))
    have hrest := ih (fun x hx => h x (List.mem_cons_of_mem r hx))
    simp at hrest
    by_cases h0 : q = 0
    · simp [hq, h0, hrest]
    · by_cases hp : 0 < q
      · simp [hq, h0, hp, hrest]
      · simp [hq, h0, hp, hrest]

/-- With no NaN cells, the losing-trades selection is the negative
filter of the column values. -/
theorem losing_eq :
    ∀ (rows : List TradeRow), (∀ r ∈ rows, (r.realized_pnl).isSome = true) →
      (((rows.map (fun r => r.realized_pnl)).filter
          (fun c => match c with | some q => decide (q ≠ 0) | none => true)).filterMap
        (fun c => c.bind (fun q => if q < 0 then some q else none)))
        = (rows.filterMap (fun r => r.realized_pnl)).filter (fun q => decide (q < 0)) := by
  intro rows
  induction rows with
  | nil => intro _; simp
  | cons r rest ih =>
    intro h
    obtain ⟨q, hq⟩ := Option.isSome_iff_exists.mp (h r (List.mem_cons_self r rest))
    have hrest := ih (fun x hx => h x (List.mem_cons_of_mem r hx))
    simp at hrest
    by_cases h0 : q = 0
    · simp [hq, h0, hrest]
    · by_cases hp : q < 0
      · simp [hq, h0, hp, hrest]
      · simp [hq, h0, hp, hrest]

/-- C7 amended: over a frame with a realized-PnL column of numeric
(non-NaN) cells, when at least one value is nonzero the profit factor is
the sum of positive values divided by the absolute sum of negative
values, and `+infinity` (modelled `none`) when there is no negative
value; but when every realized PnL is zero the result is `some 0`, not
`+infinity`. -/
theorem profit_factor_formula :
    ∀ (df : TradesFrame) (ps : List RawDict),
      df.hasRealizedPnl = true →
      df.rows ≠ [] →
      (∀ r ∈ df.rows, (r.realized_pnl).isSome = true) →
      ((∃ q ∈ df.rows.filterMap (fun r => r.realized_pnl), q ≠ 0) →
        (((df.rows.filterMap (fun r => r.realized_pnl)).filter (fun q => decide (q < 0)) ≠ [] →
          (calculate_performance_metrics df ps).profit_factor =
            some (((df.rows.filterMap (fun r => r.realized_pnl)).filter
                (fun q => decide (0 < q))).sum /
              |((df.rows.filterMap (fun r => r.realized_pnl)).filter
                (fun q => decide (q < 0))).sum|)) ∧
         ((df.rows.filterMap (fun r => r.realized_pnl)).filter (fun q => decide (q < 0)) = [] →
          (calculate_performance_metrics df ps).profit_factor = none))) ∧
      ((∀ q ∈ df.rows.filterMap (fun r => r.realized_pnl), q = 0) →
        (calculate_performance_metrics df ps).profit_factor = some 0) := by
  intro df ps hcol hrows hclean
  have hre : df.rows.isEmpty = false := by
    simpa [List.isEmpty_iff] using hrows
  have hNZ := returnsNZ_eq df.rows hclean
  have hwin := winning_eq df.rows hclean
  have hlose := losing_eq df.rows hclean
  rw [hNZ] at hwin hlose
  constructor
  · intro hex
    have hfilterne : (df.rows.filterMap (fun r => r.realized_pnl)).filter
        (fun q => decide (q ≠ 0)) ≠ [] := by
      obtain ⟨q, hqmem, hqne⟩ := hex
      exact List.ne_nil_of_mem (List.mem_filter.mpr ⟨hqmem, by simpa using hqne⟩)
    have hmape : (List.map some ((df.rows.filterMap (fun r => r.realized_pnl)).filter
        (fun q => decide (q ≠ 0)))).isEmpty = false := by
      cases hX : (df.rows.filterMap (fun r => r.realized_pnl)).filter
          (fun q => decide (q ≠ 0)) with
      | nil => exact absurd hX hfilterne
      | cons a l => simp
    constructor
    · intro hlos
      have hneg : ∀ x ∈ (df.rows.filterMap (fun r => r.realized_pnl)).filter
          (fun q => decide (q < 0)), x < 0 := by
        intro x hx
        simpa using (List.mem_filter.mp hx).2
      have hsumneg := sum_neg_of_all_neg _ hneg hlos
      have habs : 0 < |((df.rows.filterMap (fun r => r.realized_pnl)).filter
          (fun q => decide (q < 0))).sum| := abs_pos.mpr (ne_of_lt hsumneg)
      have hlen : 0 < ((df.rows.filterMap (fun r => r.realized_pnl)).filter
          (fun q => decide (q < 0))).length := List.length_pos.mpr hlos
      have htw : ∀ w : List ℚ, (if 0 < w.length then w.sum else 0) = w.sum := by
        intro w
        cases w <;> simp
      simp only [calculate_performance_metrics, hre, hcol, hNZ, hmape, hwin, hlose,
        Bool.false_eq_true, if_false, if_true, htw, if_pos hlen, if_pos habs,
        gt_iff_lt]
    · intro hlos
      simp only [calculate_performance_metrics, hre, hcol, hNZ, hmape, hwin, hlose,
        Bool.false_eq_true, if_false, if_true, hlos, List.length_nil, gt_iff_lt]
      simp
  · intro hall
    have hfilter : (df.rows.filterMap (fun r => r.realized_pnl)).filter
        (fun q => decide (q ≠ 0)) = [] := by
      rw [List.filter_eq_nil_iff]
      intro a ha
      simp [hall a ha]
    simp only [calculate_performance_metrics, hre, hcol, hNZ, hfilter, List.map_nil,
      Bool.false_eq_true, if_false, List.isEmpty_nil, if_true]

/-- C7 counterexample: a nonempty frame whose only realized PnL is `0`
has no losses, yet the profit factor is `some 0`, not `+infinity`
(`none`): the computing branch is skipped when every realized PnL is
zero, leaving the initial `0`. -/
theorem profit_factor_zero_when_all_zero :
    (calculate_performance_metrics
      { hasSymbol := false, hasTime := false, hasQty := false, hasQuoteQty := false,
        hasPrice := false, hasCommission := false, hasRealizedPnl := true,
        rows := [{ symbol := "", time := 0, qty := none, quoteQty := none, price := none,
                   commission := none, realized_pnl := some 0 }] } []).profit_factor
      = some 0 ∧
    some (0 : ℚ) ≠ (none : Option ℚ) := by
  constructor
  · simp [calculate_performance_metrics]
  · simp

/-- C7 witness: wins `[10, 20]` with losses `[-5]` give exactly `6`, and
a single winning trade with no losses gives `+infinity` (`none`). -/
theorem profit_factor_formula_witness :
    (calculate_performance_metrics
      { hasSymbol := false, hasTime := false, hasQty := false, hasQuoteQty := false,
        hasPrice := false, hasCommission := false, hasRealizedPnl := true,
        rows := [{ symbol := "", time := 0, qty := none, quoteQty := none, price := none,
                   commission := none, realized_pnl := some 10 },
                 { symbol := "", time := 0, qty := none, quoteQty := none, price := none,
                   commission := none, realized_pnl := some 20 },
                 { symbol := "", time := 0, qty := none, quoteQty := none, price := none,
                   commission := none, realized_pnl := some (-5) }] } []).profit_factor
      = some 6 ∧
    (calculate_performance_metrics
      { hasSymbol := false, hasTime := false, hasQty := false, hasQuoteQty := false,
        hasPrice := false, hasCommission := false, hasRealizedPnl := true,
        rows := [{ symbol := "", time := 0, qty := none, quoteQty := none, price := none,
                   commission := none, realized_pnl := some 10 }] } []).profit_factor
      = none := by
  constructor
  · have hfm : ((⟨false, false, false, false, false, false, true,
        [⟨"", 0, none, none, none, none, some 10⟩, ⟨"", 0, none, none, none, none, some 20⟩,
         ⟨"", 0, none, none, none, none, some (-5)⟩]⟩ : TradesFrame)).rows.filterMap
        (fun r => r.realized_pnl) = [10, 20, -5] := by
      simp
    have h := ((profit_factor_formula
      ⟨false, false, false, false, false, false, true,
        [⟨"", 0, none, none, none, none, some 10⟩, ⟨"", 0, none, none, none, none, some 20⟩,
         ⟨"", 0, none, none, none, none, some (-5)⟩]⟩ [] rfl (by simp)
      (by simp)).1 ⟨10, by rw [hfm]; norm_num, by norm_num⟩).1
      (by rw [hfm]; norm_num [List.filter])
    rw [h, hfm]
    norm_num [List.filter]
  · have hfm : ((⟨false, false, false, false, false, false, true,
        [⟨"", 0, none, none, none, none, some 10⟩]⟩ : TradesFrame)).rows.filterMap
        (fun r => r.realized_pnl) = [10] := by
      simp
    have h := ((profit_factor_formula
      ⟨false, false, false, false, false, false, true,
        [⟨"", 0, none, none, none, none, some 10⟩]⟩ [] rfl (by simp)
      (by simp)).1 ⟨10, by rw [hfm]; norm_num, by norm_num⟩).2
      (by rw [hfm]; norm_num [List.filter])
    exact h
